import Mathlib

/-!
Verification of the streaming conversational turn pipeline of the AIVoice
backend. Text is modelled as `List Char` (one entry per UTF-16 code unit of
the JavaScript string). Each definition is a shallow embedding of one
function of the source tree; the source file and function are named in the
doc comment of every definition.
-/

namespace AIVoice

/-! ## JavaScript string primitives -/

/-- Whitespace predicate of JavaScript (the class matched by regexp `\s` and
trimmed by `String.prototype.trim`): tab, LF, VT, FF, CR, space, NBSP,
Ogham space mark, the Unicode en/em spaces, line and paragraph separator,
narrow no-break space, medium mathematical space, ideographic space, BOM. -/
def jsWhitespace (c : Char) : Bool :=
  c = ' ' || c = '\t' || c = '\n' || c = '\r' ||
  c = Char.ofNat 11 || c = Char.ofNat 12 ||
  c = Char.ofNat 0xA0 || c = Char.ofNat 0x1680 ||
  (0x2000 ≤ c.toNat && c.toNat ≤ 0x200A) ||
  c = Char.ofNat 0x2028 || c = Char.ofNat 0x2029 ||
  c = Char.ofNat 0x202F || c = Char.ofNat 0x205F ||
  c = Char.ofNat 0x3000 || c = Char.ofNat 0xFEFF

/-- Embedding of `String.prototype.trim`: drop leading and trailing
JavaScript whitespace. -/
def jsTrim (s : List Char) : List Char :=
  ((s.dropWhile jsWhitespace).reverse.dropWhile jsWhitespace).reverse

/-- Downward scan used by `String.prototype.lastIndexOf(" ", i)`: starting
at index `i` and walking towards index `0`, return the first index holding
a space character. The out-of-bounds default `x` can never match. -/
def lastSpaceScan (s : List Char) : Nat → Option Nat
  | 0 => if s.getD 0 'x' = ' ' then some 0 else none
  | i + 1 => if s.getD (i + 1) 'x' = ' ' then some (i + 1) else lastSpaceScan s i

/-- Embedding of `text.lastIndexOf(" ", pos)`: the largest index `≤ pos`
holding a space, searched downwards from `min pos (length - 1)`; `none`
plays the role of the JavaScript result `-1`. -/
def jsLastIndexOfSpace (s : List Char) (pos : Nat) : Option Nat :=
  if s.isEmpty then none else lastSpaceScan s (min pos (s.length - 1))

/-! ## Text chunker (`_pickTtsChunk`, src/unnamed/part_004 lines 1419-1449) -/

/-- Sentence-ending punctuation of the chunker regexp `[.!?]\s+|\n+`. -/
def sentencePunct (c : Char) : Bool :=
  c = '.' || c = '!' || c = '?'

/-- Length of the longest prefix of `l` satisfying `p` (the greedy `+`
quantifier of the chunker regexp). -/
def leadCount (p : Char → Bool) : List Char → Nat
  | [] => 0
  | c :: rest => if p c then leadCount p rest + 1 else 0

/-- End position of the regexp match `[.!?]\s+|\n+` when one starts at
position `i` of `s` (the first alternative is preferred, as in JavaScript
regexp alternation), `none` when no match starts at `i`. -/
def matchEndAt (s : List Char) (i : Nat) : Option Nat :=
  match s.drop i with
  | [] => none
  | c :: rest =>
    if sentencePunct c && jsWhitespace (rest.headD 'x') then
      some (i + 1 + leadCount jsWhitespace rest)
    else if c = '\n' then
      some (i + leadCount (fun d => d = '\n') (c :: rest))
    else
      none

/-- Fuel-indexed embedding of the chunker boundary loop: repeated
`boundaryRe.exec` from position `i`, returning the end index of the first
match whose end is `≥ minLen`, stopping (like the `break` on
`lastIndex > maxLen`) once a match ends beyond `maxLen`. -/
def scanBoundary (minLen maxLen : Nat) (s : List Char) : Nat → Nat → Option Nat
  | 0, _ => none
  | fuel + 1, i =>
    if s.length ≤ i then none
    else
      match matchEndAt s i with
      | none => scanBoundary minLen maxLen s fuel (i + 1)
      | some e =>
        if minLen ≤ e then some e
        else if maxLen < e then none
        else scanBoundary minLen maxLen s fuel e

/-- First sentence-boundary end position at or beyond `minLen`, as found by
the `while ((match = boundaryRe.exec(text)))` loop of `_pickTtsChunk`. -/
def findBoundaryEnd (minLen maxLen : Nat) (s : List Char) : Option Nat :=
  scanBoundary minLen maxLen s (s.length + 1) 0

/-- Embedding of `_pickTtsChunk(pending, {minLen, maxLen})`
(src/unnamed/part_004 lines 1419-1449). Returns the pair
`(chunk?, rest)`: below the trimmed minimum nothing is emitted; otherwise
the first sentence boundary ending at or past `minLen` is the cut; failing
that, a buffer of at least `maxLen` characters is force-cut at
`text.lastIndexOf(" ", maxLen)` when that index exceeds `minLen`, and hard
cut at `maxLen` otherwise. -/
def pickTtsChunk (minLen maxLen : Nat) (text : List Char) :
    Option (List Char) × List Char :=
  if (jsTrim text).length < minLen then (none, text)
  else
    match findBoundaryEnd minLen maxLen text with
    | some e => (some (text.take e), text.drop e)
    | none =>
      if maxLen ≤ text.length then
        let endIdx :=
          match jsLastIndexOfSpace text maxLen with
          | some cut => if minLen < cut then cut else maxLen
          | none => maxLen
        (some (text.take endIdx), text.drop endIdx)
      else (none, text)

/-! ## Claim-side chunker definitions (for the refinement claim C4) -/

/-- Test whether index `j` of `s` holds a space character. -/
def spaceAt (s : List Char) (j : Nat) : Bool :=
  s.getD j 'x' == ' '

/-- Test whether index `j` of `s` holds a JavaScript whitespace character. -/
def wsAt (s : List Char) (j : Nat) : Bool :=
  jsWhitespace (s.getD j 'x')

/-- Declarative "greatest space index at or before `pos`": the first hit of
a right-to-left search over all indices of `s` that are `≤ pos`. Used by
the amended reading of the force-cut rule. -/
def lastSpaceSpec (s : List Char) (pos : Nat) : Option Nat :=
  ((List.range (min (pos + 1) s.length)).reverse).find? (spaceAt s)

/-- Declarative "greatest JavaScript-whitespace index strictly before
`bound`", following the claim wording "the last whitespace before 160". -/
def lastWsBefore (s : List Char) (bound : Nat) : Option Nat :=
  ((List.range (min bound s.length)).reverse).find? (wsAt s)

/-- Chunker as described by claim C4, word for word: below the trimmed
minimum return nothing; otherwise cut at the first sentence boundary whose
end is at or beyond the minimum; otherwise, once the buffer has reached
`maxLen` characters, force-cut at the last whitespace before `maxLen`,
falling back to a hard cut at `maxLen` only when no whitespace exists
before that bound. -/
def pickTtsChunkClaimed (minLen maxLen : Nat) (text : List Char) :
    Option (List Char) × List Char :=
  if (jsTrim text).length < minLen then (none, text)
  else
    match findBoundaryEnd minLen maxLen text with
    | some e => (some (text.take e), text.drop e)
    | none =>
      if maxLen ≤ text.length then
        let endIdx :=
          match lastWsBefore text maxLen with
          | some cut => cut
          | none => maxLen
        (some (text.take endIdx), text.drop endIdx)
      else (none, text)

/-- Chunker as described by the amended claim C4: identical to the claimed
algorithm except in the force-cut rule, which cuts at the greatest space
character at index at or before `maxLen`, and only when that index exceeds
`minLen`; in every other case it hard-cuts at `maxLen`. -/
def pickTtsChunkAmended (minLen maxLen : Nat) (text : List Char) :
    Option (List Char) × List Char :=
  if (jsTrim text).length < minLen then (none, text)
  else
    match findBoundaryEnd minLen maxLen text with
    | some e => (some (text.take e), text.drop e)
    | none =>
      if maxLen ≤ text.length then
        let endIdx :=
          match lastSpaceSpec text maxLen with
          | some cut => if minLen < cut then cut else maxLen
          | none => maxLen
        (some (text.take endIdx), text.drop endIdx)
      else (none, text)

/-! ## Per-turn chunk accumulation (`maybeQueueChunks`,
src/unnamed/part_004 lines 1692-1721) -/

/-- State threaded through the delta callback of `chatStream`: the not yet
queued text tail `pending` (the source variable `pendingSpeak`), the chunks
queued for synthesis so far, and whether a first chunk has been queued
(non-nullness of the source variable `firstTtsChunkQueuedAt`). -/
structure ChunkState where
  pending : List Char
  queued : List (List Char)
  firstQueued : Bool
  deriving Repr, DecidableEq

/-- Fuel-indexed embedding of the `while (true)` pull loop of
`maybeQueueChunks`: repeatedly extract ready chunks with the chunker and
append them to the queue. -/
def pullChunks : Nat → ChunkState → ChunkState
  | 0, st => st
  | fuel + 1, st =>
    match pickTtsChunk 22 160 st.pending with
    | (some c, rest) => pullChunks fuel ⟨rest, st.queued ++ [c], true⟩
    | (none, _) => st

/-- Cut position of the forced early chunk (`maybeQueueChunks` latency
escape valve): the last space at or before position `min 120 length` when
that index exceeds 10, and `min 120 length` otherwise. -/
def forcedCutLen (pending : List Char) : Nat :=
  match jsLastIndexOfSpace pending (min 120 pending.length) with
  | some cut => if 10 < cut then cut else min 120 pending.length
  | none => min 120 pending.length

/-- Forced early chunk step of `maybeQueueChunks`: when no chunk has been
queued yet, the wall-clock budget has elapsed and at least 18 trimmed
characters are pending, cut a chunk at `forcedCutLen` and queue it. -/
def forcedStep (forceNow : Bool) (st : ChunkState) : ChunkState :=
  if !st.firstQueued && forceNow && 18 ≤ (jsTrim st.pending).length then
    ⟨st.pending.drop (forcedCutLen st.pending),
      st.queued ++ [st.pending.take (forcedCutLen st.pending)], true⟩
  else st

/-- Embedding of `maybeQueueChunks`. The Boolean `forceNow` stands for the
wall-clock test `Date.now() - firstTokenAt >= 650`, which the embedding
receives as an oracle because it depends on real time only. -/
def maybeQueueChunksModel (forceNow : Bool) (st : ChunkState) : ChunkState :=
  forcedStep forceNow (pullChunks (st.pending.length + 1) st)

/-- One delta of the generation stream: the delta is appended to
`pendingSpeak` and `maybeQueueChunks` runs, as in the `onChunk` callback of
`chatStream`. -/
def processDelta (forceNow : Bool) (st : ChunkState) (delta : List Char) : ChunkState :=
  maybeQueueChunksModel forceNow ⟨st.pending ++ delta, st.queued, st.firstQueued⟩

/-- Chunk accumulation over a whole generation stream; `oracle i` is the
wall-clock test outcome while processing delta `i`. -/
def runDeltas (oracle : Nat → Bool) : Nat → ChunkState → List (List Char) → ChunkState
  | _, st, [] => st
  | i, st, d :: rest => runDeltas oracle (i + 1) (processDelta (oracle i) st d) rest

/-! ## NDJSON events and audio locator (`toAudioUrl`,
src/unnamed/part_004 lines 704-714) -/

/-- Events written to the NDJSON response stream by `chatStream` and
`prefetchDraft`. -/
inductive Ev where
  | assistantDelta (delta : List Char)
  | ttsAudio (index : Nat) (text : List Char) (audioUrl : List Char) (ttsMs : Nat)
  | ttsError (msg : List Char)
  | latency
  | final (text : List Char) (shouldEndCall : Bool)
  | done
  | rateLimited (retryAfterMs : Option Nat)
  | error (msg : List Char)
  deriving Repr, DecidableEq

/-- Hexadecimal digit test used by `mongoose.Types.ObjectId.isValid`. -/
def isHexDigit (c : Char) : Bool :=
  ('0' ≤ c && c ≤ '9') || ('a' ≤ c && c ≤ 'f') || ('A' ≤ c && c ≤ 'F')

/-- Embedding of `mongoose.Types.ObjectId.isValid` on strings: a 24
character hexadecimal string, or any 12 character string. -/
def isValidObjectId (v : List Char) : Bool :=
  (v.length == 24 && v.all isHexDigit) || v.length == 12

/-- Embedding of `toAudioUrl` (src/unnamed/part_004 lines 704-714): `none`
models the JavaScript `null` returned for an empty or missing file id. -/
def toAudioUrl (fileOrPath : List Char) : Option (List Char) :=
  if fileOrPath.isEmpty then none
  else if ("http://".toList).isPrefixOf fileOrPath then some fileOrPath
  else if ("https://".toList).isPrefixOf fileOrPath then some fileOrPath
  else if ("/api/audio/".toList).isPrefixOf fileOrPath then some fileOrPath
  else if ("/audio/".toList).isPrefixOf fileOrPath then some fileOrPath
  else if isValidObjectId fileOrPath then some ("/api/audio/".toList ++ fileOrPath)
  else if fileOrPath.headD 'x' = '/' then some fileOrPath
  else some ("/api/audio/".toList ++ fileOrPath)

/-! ## Speech synthesis queue drain (`drainTtsQueue`,
src/unnamed/part_004 lines 1641-1690) -/

/-- Outcome of one `textToSpeech` provider call: a stored audio file id
together with the wall-clock duration of the call, or a thrown error. The
duration parameter carries the arbitrary per-call latency; it never
influences which events are produced or their order. -/
inductive SynthResult where
  | ok (audioFileId : List Char) (ms : Nat)
  | err (msg : List Char)
  deriving Repr, DecidableEq

/-- Result of one invocation of `drainTtsQueue`: the events written, the
mergeable segment ids collected into `audioSegmentIds`, the value of
`ttsIndex` afterwards, and the chunks still sitting in `ttsQueue` when the
loop exited. -/
structure DrainStep where
  events : List Ev
  segIds : List (List Char)
  nextIdx : Nat
  leftover : List (List Char)
  deriving Repr, DecidableEq

/-- Embedding of one invocation of `drainTtsQueue`. The queue is consumed
front to back; a blank chunk is skipped; a successful synthesis with a
usable locator emits one ordered `tts_audio` event carrying the current
`ttsIndex` (incremented only then); a thrown synthesis error is caught
outside the `while` loop, so it emits a single `tts_error` event and ends
the invocation with the remaining chunks still queued. `synth pos t` is
the provider outcome for the chunk at overall position `pos`. -/
def drainOnce (synth : Nat → List Char → SynthResult) (pos idx : Nat) :
    List (List Char) → DrainStep
  | [] => ⟨[], [], idx, []⟩
  | c :: rest =>
    if (jsTrim c).isEmpty then drainOnce synth (pos + 1) idx rest
    else
      match synth pos (jsTrim c) with
      | .err m => ⟨[.ttsError m], [], idx, rest⟩
      | .ok fid ms =>
        match toAudioUrl fid with
        | none => drainOnce synth (pos + 1) idx rest
        | some url =>
          let r := drainOnce synth (pos + 1) (idx + 1) rest
          ⟨.ttsAudio idx (jsTrim c) url ms :: r.events,
            (if isValidObjectId fid then [fid] else []) ++ r.segIds,
            r.nextIdx, r.leftover⟩

/-- Cumulative drain output of a turn. -/
structure DrainOut where
  events : List Ev
  segIds : List (List Char)
  nextIdx : Nat
  deriving Repr, DecidableEq

/-- Cumulative effect of every `drainTtsQueue` invocation of one turn over
the chunks enqueued in order: identical to `drainOnce` except that after a
caught synthesis error the remaining chunks are still processed, modelling
the drain being restarted by a later `maybeQueueChunks` enqueue. `ttsIndex`
and the queue survive between invocations in the source, so the position
and index threading is the same as within one invocation. -/
def processAll (synth : Nat → List Char → SynthResult) (pos idx : Nat) :
    List (List Char) → DrainOut
  | [] => ⟨[], [], idx⟩
  | c :: rest =>
    if (jsTrim c).isEmpty then processAll synth (pos + 1) idx rest
    else
      match synth pos (jsTrim c) with
      | .err m =>
        let r := processAll synth (pos + 1) idx rest
        ⟨.ttsError m :: r.events, r.segIds, r.nextIdx⟩
      | .ok fid ms =>
        match toAudioUrl fid with
        | none => processAll synth (pos + 1) idx rest
        | some url =>
          let r := processAll synth (pos + 1) (idx + 1) rest
          ⟨.ttsAudio idx (jsTrim c) url ms :: r.events,
            (if isValidObjectId fid then [fid] else []) ++ r.segIds, r.nextIdx⟩

/-- Indices carried by the `tts_audio` events of an event list, in emission
order. -/
def ttsIndices (evs : List Ev) : List Nat :=
  evs.filterMap fun e =>
    match e with
    | .ttsAudio i _ _ _ => some i
    | _ => none

/-- Chunk texts carried by the `tts_audio` events of an event list, in
emission order. -/
def ttsTexts (evs : List Ev) : List (List Char) :=
  evs.filterMap fun e =>
    match e with
    | .ttsAudio _ t _ _ => some t
    | _ => none

/-- Concrete synthesis oracle that throws on the chunk at position 0 and
succeeds with a valid GridFS object id on every later chunk. -/
def synthFailFirst : Nat → List Char → SynthResult :=
  fun pos _ =>
    if pos = 0 then .err ("boom".toList)
    else .ok ("0123456789abcdef01234567".toList) 5

/-! ## Conversation data model and turn orchestrator
(`chatStream`, src/unnamed/part_004 lines 1487-1867, and
`prefetchDraft`, lines 1275-1417) -/

/-- Message roles stored in a conversation document. -/
inductive Role where
  | system
  | user
  | assistant
  deriving Repr, DecidableEq

/-- One message of a conversation document. -/
structure Msg where
  role : Role
  content : List Char
  deriving Repr, DecidableEq

/-- The slice of a Conversation document the pipeline reads and writes:
its ordered message list and its accumulated audio segment ids. -/
structure Conv where
  messages : List Msg
  audioSegments : List (List Char)
  deriving Repr, DecidableEq

/-- One entry of the agent function list (`agent.functions`). -/
structure Func where
  name : List Char
  enabled : Bool
  deriving Repr, DecidableEq

/-- Outcome of the `getStreamingAIResponse` call. In the success case
`content` equals the concatenation of the emitted deltas (the provider
wrapper accumulates exactly the strings it passes to `onChunk`), so only
the delta list is carried. The failure case models a generation call that
throws before any delta is produced — the failure mode addressed by the
claims — carrying the HTTP status, the provider error code, the
`retry-after-ms` and `retry-after` headers when present and numeric, and
the error message. -/
inductive GenOutcome where
  | ok (deltas : List (List Char)) (tokensUsed : Nat) (functionCalls : List (List Char))
  | fail (status : Option Nat) (code : Option (List Char))
      (retryAfterMsHeader : Option Nat) (retryAfterSecHeader : Option Nat)
      (msg : List Char)
  deriving Repr, DecidableEq

/-- Seconds branch of the retry-after computation:
`Number(headers["retry-after"]) ? Number(headers["retry-after"]) * 1000 : null`,
where an absent, non-numeric or zero header is falsy. -/
def retrySecPart (secH : Option Nat) : Option Nat :=
  match secH with
  | some s => if s = 0 then none else some (s * 1000)
  | none => none

/-- Embedding of the `retryAfterMs` computation of the catch blocks of
`chatStream` and `prefetchDraft`: `Number(headers["retry-after-ms"]) || (...)`
with JavaScript falsiness, so a zero or absent millisecond header falls
through to the seconds header. -/
def retryAfterFrom (msH secH : Option Nat) : Option Nat :=
  match msH with
  | some v => if v = 0 then retrySecPart secH else some v
  | none => retrySecPart secH

/-- Language-name lookup table of `chatStream` and `prefetchDraft`
(default English). -/
def languageName (lang : List Char) : List Char :=
  if lang = "en".toList then "English".toList
  else if lang = "es".toList then "Spanish".toList
  else if lang = "fr".toList then "French".toList
  else if lang = "de".toList then "German".toList
  else if lang = "it".toList then "Italian".toList
  else if lang = "pt".toList then "Portuguese".toList
  else if lang = "zh".toList then "Chinese".toList
  else if lang = "ja".toList then "Japanese".toList
  else if lang = "ko".toList then "Korean".toList
  else if lang = "ru".toList then "Russian".toList
  else if lang = "ar".toList then "Arabic".toList
  else if lang = "hi".toList then "Hindi".toList
  else "English".toList

/-- Language directive appended once to the system message. -/
def languageInstruction (lang : List Char) : List Char :=
  "\n\nIMPORTANT: You MUST respond in ".toList ++ languageName lang ++
    " (".toList ++ lang ++ "). All your responses should be in ".toList ++
    languageName lang ++ " language.".toList

/-- Embedding of `String.prototype.includes`: substring containment. -/
def containsSub (needle : List Char) : List Char → Bool
  | [] => needle.isEmpty
  | c :: rest => needle.isPrefixOf (c :: rest) || containsSub needle rest

/-- One-time language fix of the first message: when the first message is
the system prompt and carries neither the `MUST respond in` marker nor a
`respond in <language>` marker, the language directive is appended to its
content; every other message is untouched. -/
def applyLanguageFix (lang : List Char) (msgs : List Msg) : List Msg :=
  match msgs with
  | [] => []
  | m0 :: rest =>
    if m0.role = Role.system then
      if !(containsSub ("MUST respond in".toList) m0.content) &&
          !(containsSub (("respond in ".toList) ++ lang) m0.content) then
        ⟨Role.system, m0.content ++ languageInstruction lang⟩ :: rest
      else m0 :: rest
    else m0 :: rest

/-- Whether the agent function list contains an enabled `end_call`
function (equivalently: whether the `tools` array passed to the provider
is non-empty). -/
def endCallEnabledB (functions : List Func) : Bool :=
  functions.any fun f => f.enabled && f.name == ("end_call".toList)

/-- The `shouldEndCall` flag of `chatStream`: an enabled `end_call`
function exists and the provider reported a tool invocation named
`end_call`. -/
def shouldEndCallB (functions : List Func) (fcs : List (List Char)) : Bool :=
  endCallEnabledB functions && fcs.any fun n => n == ("end_call".toList)

/-- Fallback farewell substituted when generation produced no text and the
call is ending. -/
def fallbackGoodbye : List Char :=
  "Goodbye! Have a great day.".toList

/-- Fallback substituted when generation produced no text and the call is
not ending. -/
def fallbackRepeat : List Char :=
  "Sorry — I didn\x27t catch that. Could you repeat?".toList

/-- The `finalAiResponse` computation of `chatStream`: the trimmed
generated text, or a deterministic fallback when it is empty. -/
def finalResponseText (deltas : List (List Char)) (endCall : Bool) : List Char :=
  let t := jsTrim deltas.flatten
  if t.isEmpty then (if endCall then fallbackGoodbye else fallbackRepeat) else t

/-- Result of one `chatStream` turn: the NDJSON events written and the
conversation document as saved (`none` when `conversation.save()` is never
reached, as in the catch paths). -/
structure TurnResult where
  events : List Ev
  savedConversation : Option Conv
  deriving Repr, DecidableEq

/-- Embedding of one `chatStream` turn (src/unnamed/part_004 lines
1487-1867) for a request that passed validation and lookup. On generation
success: the user message is appended, the one-time language fix applied
to the stored messages, every delta is fed to the chunker, the remaining
buffered text is flushed as a final chunk when its trim is non-empty, the
queue is drained, the assistant message (with fallback substitution) and
the collected segment ids are persisted, and the `latency`, `final` and
`done` events close the stream. The model lists the `tts_audio`/`tts_error`
events after the delta events, whereas the source interleaves them with
the deltas as synthesis completes; the claims settled on this model do not
depend on that relative interleaving, and the internal order of the
synthesis events themselves is proved separately on the drain model. On a
generation failure before any delta: the catch block writes exactly one
`rate_limited` event (HTTP 429 or provider code `rate_limit_exceeded`) or
one generic `error` event, nothing is persisted, and the response ends
with no further event. The call-record update is not modelled; no settled
claim mentions it. -/
def chatStreamModel (conv : Conv) (functions : List Func)
    (language userText : List Char) (gen : GenOutcome)
    (synth : Nat → List Char → SynthResult) (forceOracle : Nat → Bool) : TurnResult :=
  match gen with
  | .fail status code msH secH msg =>
    if status == some 429 || code == some ("rate_limit_exceeded".toList) then
      ⟨[.rateLimited (retryAfterFrom msH secH)], none⟩
    else
      ⟨[.error msg], none⟩
  | .ok deltas _tokensUsed fcs =>
    let msgs2 := applyLanguageFix language (conv.messages ++ [⟨Role.user, userText⟩])
    let st := runDeltas forceOracle 0 ⟨[], [], false⟩ deltas
    let endCall := shouldEndCallB functions fcs
    let finalText := finalResponseText deltas endCall
    let chunks := st.queued ++ (if (jsTrim st.pending).isEmpty then [] else [st.pending])
    let dr := processAll synth 0 0 chunks
    ⟨deltas.map Ev.assistantDelta ++ dr.events ++
        [Ev.latency, Ev.final finalText endCall, Ev.done],
      some ⟨msgs2 ++ [⟨Role.assistant, finalText⟩], conv.audioSegments ++ dr.segIds⟩⟩

/-- Result of one `prefetchDraft` request: the NDJSON events, the
conversation as saved (always `none`: the handler never calls `save`), and
the provider-facing message list it builds from copies. -/
structure DraftResult where
  events : List Ev
  savedConversation : Option Conv
  messagesSent : List Msg
  deriving Repr, DecidableEq

/-- Embedding of `prefetchDraft` (src/unnamed/part_004 lines 1275-1417)
for a request that passed validation and lookup. The provider message list
is built from per-message copies of the conversation document; the
language fix mutates the first copy only. The handler performs speculative
generation only: it invokes no speech synthesis, stores no audio segment,
and writes neither the conversation nor the call record. -/
def prefetchDraftModel (conv : Conv) (language draftText : List Char)
    (gen : GenOutcome) : DraftResult :=
  let copies := conv.messages.map fun m => (⟨m.role, m.content⟩ : Msg)
  let sent := applyLanguageFix language copies ++
    [⟨Role.user, ("Partial speech (may change): ".toList) ++ jsTrim draftText⟩]
  match gen with
  | .ok deltas _ _ =>
    ⟨deltas.map Ev.assistantDelta ++ [Ev.latency, Ev.done], none, sent⟩
  | .fail status code msH secH msg =>
    if status == some 429 || code == some ("rate_limit_exceeded".toList) then
      ⟨[.rateLimited (retryAfterFrom msH secH)], none, sent⟩
    else
      ⟨[.error msg], none, sent⟩

/-- Event kinds permitted on the draft/prefetch stream. -/
def allowedDraftEvent : Ev → Bool
  | .assistantDelta _ => true
  | .latency => true
  | .done => true
  | .rateLimited _ => true
  | .error _ => true
  | _ => false

/-- Concrete synthesis oracle that always succeeds with a valid GridFS
object id. -/
def synthAllOk : Nat → List Char → SynthResult :=
  fun _ _ => .ok ("0123456789abcdef01234567".toList) 7

/-! ## Ephemeral delivery token store (`createTtsToken` and
`streamTtsByToken`, src/controllers/ttsController.js lines 42-71) -/

/-- Synthesis parameters carried by a delivery token (the payload stored in
`ttsTokenStore`): text, voice, model, stability, similarity, streaming
latency hint and the owning turn id; `none` models an absent field or
JavaScript `null`. -/
structure TtsParams where
  text : List Char
  voiceId : Option (List Char)
  modelId : Option (List Char)
  stability : Option Nat
  similarityBoost : Option Nat
  optimizeStreamingLatency : Option Nat
  turnId : Option (List Char)
  deriving Repr, DecidableEq

/-- One stored entry of `ttsTokenStore`. -/
structure TokenItem where
  params : TtsParams
  expiresAt : Nat
  deriving Repr, DecidableEq

/-- The in-memory `ttsTokenStore` map, as an association list. -/
abbrev TokenStore := List (List Char × TokenItem)

/-- Lookup of `ttsTokenStore.get(token)`. -/
def storeGet (store : TokenStore) (k : List Char) : Option TokenItem :=
  (store.find? fun e => e.1 == k).map fun e => e.2

/-- Embedding of `ttsTokenStore.delete(token)`. -/
def storeDelete (store : TokenStore) (k : List Char) : TokenStore :=
  store.filter fun e => !(e.1 == k)

/-- Embedding of `ttsTokenStore.set(token, item)`. Setting an existing key
is modelled as delete plus append; a JavaScript `Map.set` keeps the
original insertion position instead, but lookup, deletion and membership
behave identically, and minted tokens are fresh random keys. -/
def storeSet (store : TokenStore) (k : List Char) (v : TokenItem) : TokenStore :=
  storeDelete store k ++ [(k, v)]

/-- Embedding of `_cleanupExpiredTokens`: drop every entry whose
`expiresAt` is truthy (non-zero) and has passed. -/
def cleanupExpiredTokens (now : Nat) (store : TokenStore) : TokenStore :=
  store.filter fun e => !(decide (0 < e.2.expiresAt) && decide (e.2.expiresAt ≤ now))

/-- Token lifetime: 3 minutes in milliseconds. -/
def ttlMs : Nat := 3 * 60 * 1000

/-- Embedding of `createTtsToken` (src/controllers/ttsController.js lines
42-57): sweep expired tokens, then store the payload under the freshly
minted random `token` with `expiresAt = now + 3 minutes`. The random token
value is an input of the embedding. -/
def createTtsToken (store : TokenStore) (now : Nat) (token : List Char)
    (payload : TtsParams) : TokenStore :=
  storeSet (cleanupExpiredTokens now store) token ⟨payload, now + ttlMs⟩

/-- Outcome of a `GET /api/tts/:token` fetch: a 404, a streamed synthesis
with the stored parameters, or a failed synthesis (500 / truncated
stream). -/
inductive FetchRes where
  | notFound
  | streamed (params : TtsParams)
  | failed
  deriving Repr, DecidableEq

/-- Embedding of `streamTtsByToken` (src/controllers/ttsController.js
lines 63-71 and following): an unknown or expired token yields 404 and
leaves the store untouched; otherwise the mapping is deleted before the
synthesis stream is attempted, whose success or failure is the oracle
`synthOk`. -/
def streamTtsByToken (store : TokenStore) (now : Nat) (token : List Char)
    (synthOk : Bool) : FetchRes × TokenStore :=
  match storeGet store token with
  | none => (.notFound, store)
  | some item =>
    if 0 < item.expiresAt ∧ item.expiresAt ≤ now then (.notFound, store)
    else
      ((if synthOk then .streamed item.params else .failed), storeDelete store token)

/-! ## Audio segment merge (`mergeConversationAudio`,
src/services/audioMergeService.js lines 102-142) -/

/-- Embedding of `mergeAudioBuffers` (src/services/audioMergeService.js
lines 18-21): `Buffer.concat`, plain byte concatenation. Bytes are
modelled as naturals. -/
def mergeAudioBuffers (buffers : List (List Nat)) : List Nat :=
  buffers.flatten

/-- The merged blob as stored by `storeMergedAudio`: its bytes, its
metadata classification (`full_conversation`) and its absent expiry. -/
structure StoredAudio where
  bytes : List Nat
  objType : List Char
  expiresAt : Option Nat
  deriving Repr, DecidableEq

/-- Embedding of `mergeConversationAudio` (src/services/audioMergeService.js
lines 102-142). `download` is the GridFS download oracle: `none` models a
failed segment download, which is logged and skipped. An empty id list, or
a list on which every download fails, throws; otherwise the successfully
downloaded buffers are concatenated in list order and stored as a
`full_conversation` blob with no expiry. -/
def mergeConversationAudio (download : List Char → Option (List Nat))
    (audioFileIds : List (List Char)) : Except (List Char) StoredAudio :=
  if audioFileIds.isEmpty then .error ("No audio files to merge".toList)
  else
    let audioBuffers := audioFileIds.filterMap download
    if audioBuffers.isEmpty then .error ("No valid audio segments to merge".toList)
    else .ok ⟨mergeAudioBuffers audioBuffers, "full_conversation".toList, none⟩

/-- Concrete download oracle for the merge witness: segment `segA` yields
bytes `[1, 2]`, segment `segC` yields `[5]`, and every other segment —
in particular `segB` — is unreachable. -/
def downloadABC : List Char → Option (List Nat) :=
  fun i =>
    if i = "segA".toList then some [1, 2]
    else if i = "segC".toList then some [5]
    else none

/-! ## Lemmas and claim theorems -/

/-! ## Chunker lemmas -/

theorem pickTtsChunk_concat (minLen maxLen : Nat) (s : List Char) :
    (pickTtsChunk minLen maxLen s).1.getD [] ++ (pickTtsChunk minLen maxLen s).2 = s := by
  unfold pickTtsChunk
  split
  · rfl
  · split
    · simp
    · split
      · simp
      · rfl

theorem pullChunks_concat (fuel : Nat) (st : ChunkState) :
    (pullChunks fuel st).queued.flatten ++ (pullChunks fuel st).pending =
      st.queued.flatten ++ st.pending := by
  induction fuel generalizing st with
  | zero => rfl
  | succ n ih =>
    unfold pullChunks
    rcases h : pickTtsChunk 22 160 st.pending with ⟨oc, rest⟩
    cases oc with
    | none => rfl
    | some c =>
      have hc : c ++ rest = st.pending := by
        have := pickTtsChunk_concat 22 160 st.pending
        rw [h] at this
        simpa using this
      simp only [ih]
      simp [← hc]

theorem forcedStep_concat (forceNow : Bool) (st : ChunkState) :
    (forcedStep forceNow st).queued.flatten ++ (forcedStep forceNow st).pending =
      st.queued.flatten ++ st.pending := by
  unfold forcedStep
  split
  · simp [List.append_assoc]
  · rfl

theorem maybeQueueChunks_concat (forceNow : Bool) (st : ChunkState) :
    (maybeQueueChunksModel forceNow st).queued.flatten ++
        (maybeQueueChunksModel forceNow st).pending =
      st.queued.flatten ++ st.pending := by
  unfold maybeQueueChunksModel
  rw [forcedStep_concat, pullChunks_concat]

theorem runDeltas_concat (oracle : Nat → Bool) (i : Nat) (st : ChunkState)
    (deltas : List (List Char)) :
    (runDeltas oracle i st deltas).queued.flatten ++ (runDeltas oracle i st deltas).pending =
      st.queued.flatten ++ st.pending ++ deltas.flatten := by
  induction deltas generalizing i st with
  | nil => simp [runDeltas]
  | cons d rest ih =>
    simp only [runDeltas, ih]
    have h := maybeQueueChunks_concat (oracle i) ⟨st.pending ++ d, st.queued, st.firstQueued⟩
    simp only [processDelta, h]
    simp

theorem spaceAt_true_iff (s : List Char) (j : Nat) :
    spaceAt s j = true ↔ s.getD j 'x' = ' ' := by
  simp [spaceAt]

theorem lastSpaceScan_eq (s : List Char) (i : Nat) :
    lastSpaceScan s i = ((List.range (i + 1)).reverse).find? (spaceAt s) := by
  induction i with
  | zero =>
    have h0 : (List.range 1).reverse = [0] := rfl
    rw [h0]
    simp only [lastSpaceScan]
    cases hb : spaceAt s 0 with
    | false =>
      rw [if_neg (fun hx => by simp only [spaceAt] at hb; rw [hx] at hb; simp at hb),
        List.find?_cons_of_neg _ (by simp [hb]), List.find?_nil]
    | true =>
      rw [if_pos ((spaceAt_true_iff s 0).mp hb), List.find?_cons_of_pos _ hb]
  | succ n ih =>
    rw [List.range_succ, List.reverse_append, List.reverse_singleton,
      List.singleton_append]
    simp only [lastSpaceScan]
    cases hb : spaceAt s (n + 1) with
    | false =>
      rw [if_neg (fun hx => by simp only [spaceAt] at hb; rw [hx] at hb; simp at hb),
        List.find?_cons_of_neg _ (by simp [hb]), ih]
    | true =>
      rw [if_pos ((spaceAt_true_iff s (n + 1)).mp hb), List.find?_cons_of_pos _ hb]

theorem jsLastIndexOfSpace_eq_lastSpaceSpec (s : List Char) (pos : Nat) :
    jsLastIndexOfSpace s pos = lastSpaceSpec s pos := by
  unfold jsLastIndexOfSpace lastSpaceSpec
  cases s with
  | nil => simp
  | cons c rest =>
    have hlen : min pos ((c :: rest).length - 1) + 1 = min (pos + 1) (c :: rest).length := by
      simp only [List.length_cons]
      omega
    simp only [List.isEmpty_cons, if_false, Bool.false_eq_true, lastSpaceScan_eq, hlen]

set_option maxRecDepth 8192 in
/-- C4: the chunker does not equal the claimed reference algorithm. Two
explicit inputs separate them. On the first (159 letters with a tab at
index 2, no space, no sentence boundary) the code hard-cuts at 160 even
though whitespace exists before the bound; on the second (a space at
index 2 and no other space) the code hard-cuts at 160 even though a space
exists before the bound, because the space index does not exceed the
22-character minimum. -/
theorem c4CounterexampleThm :
    pickTtsChunk 22 160 ('a' :: 'b' :: '\t' :: List.replicate 157 'c') ≠
        pickTtsChunkClaimed 22 160 ('a' :: 'b' :: '\t' :: List.replicate 157 'c') ∧
      pickTtsChunk 22 160 ('a' :: 'b' :: ' ' :: List.replicate 157 'c') ≠
        pickTtsChunkClaimed 22 160 ('a' :: 'b' :: ' ' :: List.replicate 157 'c') := by
  constructor <;> decide

/-- C4 (amended): for a buffer whose trimmed length is below the
22-character minimum the chunker returns no chunk and the unchanged
buffer; otherwise it cuts at the end of the first sentence-ending
punctuation followed by whitespace, or newline run, whose end index is at
or beyond 22; and if no such boundary exists and the buffer has reached
160 characters, it force-cuts at the greatest index at or before 160 that
holds a space character, provided that index exceeds 22, and hard-cuts at
160 otherwise (in particular when no space exists, when the last space
sits at an index of at most 22, or when the whitespace before the bound is
not a space character). -/
theorem c4PickTtsChunkMatchesAmendedReference (minLen maxLen : Nat) (text : List Char) :
    pickTtsChunk minLen maxLen text = pickTtsChunkAmended minLen maxLen text := by
  unfold pickTtsChunk pickTtsChunkAmended
  rw [jsLastIndexOfSpace_eq_lastSpaceSpec]

/-- C3: whenever the chunker returns a chunk, the chunk concatenated with
the returned remainder is exactly the input buffer; consequently, over any
generation stream and any outcome of the wall-clock forced-cut tests,
concatenating every queued chunk with the final remainder reproduces the
concatenation of all deltas, with no character dropped or duplicated. -/
theorem c3ChunkerLossless :
    (∀ minLen maxLen s,
        (pickTtsChunk minLen maxLen s).1.getD [] ++ (pickTtsChunk minLen maxLen s).2 = s) ∧
      (∀ oracle deltas,
        (runDeltas oracle 0 ⟨[], [], false⟩ deltas).queued.flatten ++
            (runDeltas oracle 0 ⟨[], [], false⟩ deltas).pending =
          deltas.flatten) := by
  refine ⟨pickTtsChunk_concat, fun oracle deltas => ?_⟩
  simpa using runDeltas_concat oracle 0 ⟨[], [], false⟩ deltas

@[simp] theorem ttsIndices_nil : ttsIndices [] = [] := rfl

@[simp] theorem ttsIndices_cons_audio (i : Nat) (t u : List Char) (ms : Nat)
    (evs : List Ev) : ttsIndices (.ttsAudio i t u ms :: evs) = i :: ttsIndices evs := rfl

@[simp] theorem ttsIndices_cons_err (m : List Char) (evs : List Ev) :
    ttsIndices (.ttsError m :: evs) = ttsIndices evs := rfl

@[simp] theorem ttsTexts_nil : ttsTexts [] = [] := rfl

@[simp] theorem ttsTexts_cons_audio (i : Nat) (t u : List Char) (ms : Nat)
    (evs : List Ev) : ttsTexts (.ttsAudio i t u ms :: evs) = t :: ttsTexts evs := rfl

@[simp] theorem ttsTexts_cons_err (m : List Char) (evs : List Ev) :
    ttsTexts (.ttsError m :: evs) = ttsTexts evs := rfl

theorem ttsIndices_processAll (synth : Nat → List Char → SynthResult)
    (pos idx : Nat) (q : List (List Char)) :
    ttsIndices (processAll synth pos idx q).events =
      List.range' idx (ttsIndices (processAll synth pos idx q).events).length := by
  induction q generalizing pos idx with
  | nil => rfl
  | cons c rest ih =>
    simp only [processAll]
    split
    · exact ih (pos + 1) idx
    · cases hs : synth pos (jsTrim c) with
      | err m =>
        dsimp only
        rw [ttsIndices_cons_err]
        exact ih (pos + 1) idx
      | ok fid ms =>
        dsimp only
        cases hu : toAudioUrl fid with
        | none =>
          dsimp only
          exact ih (pos + 1) idx
        | some url =>
          dsimp only
          rw [ttsIndices_cons_audio, List.length_cons, List.range'_succ]
          exact congrArg (List.cons idx) (ih (pos + 1) (idx + 1))

theorem ttsTexts_processAll_sublist (synth : Nat → List Char → SynthResult)
    (pos idx : Nat) (q : List (List Char)) :
    (ttsTexts (processAll synth pos idx q).events).Sublist (q.map jsTrim) := by
  induction q generalizing pos idx with
  | nil => simp [processAll]
  | cons c rest ih =>
    simp only [processAll, List.map_cons]
    split
    · exact List.Sublist.cons _ (ih (pos + 1) idx)
    · cases hs : synth pos (jsTrim c) with
      | err m =>
        dsimp only
        rw [ttsTexts_cons_err]
        exact List.Sublist.cons _ (ih (pos + 1) idx)
      | ok fid ms =>
        dsimp only
        cases hu : toAudioUrl fid with
        | none =>
          dsimp only
          exact List.Sublist.cons _ (ih (pos + 1) idx)
        | some url =>
          dsimp only
          rw [ttsTexts_cons_audio]
          exact List.Sublist.cons₂ _ (ih (pos + 1) (idx + 1))

/-- C1: over one `chatStream` turn, whatever the enqueued chunk sequence
and whatever the outcome and latency of each individual synthesis call
(both supplied by the oracle `synth`), the emitted `tts_audio` events carry
consecutive indices `0, 1, 2, ...` and their texts appear in exactly the
order their source chunks were enqueued (a sublist of the trimmed chunk
sequence: chunks that are blank, fail, or yield no locator emit nothing
and are skipped without disturbing the order). -/
theorem c1TtsAudioOrdered (synth : Nat → List Char → SynthResult)
    (chunks : List (List Char)) :
    ttsIndices (processAll synth 0 0 chunks).events =
        List.range (ttsIndices (processAll synth 0 0 chunks).events).length ∧
      (ttsTexts (processAll synth 0 0 chunks).events).Sublist (chunks.map jsTrim) := by
  constructor
  · rw [List.range_eq_range']
    exact ttsIndices_processAll synth 0 0 chunks
  · exact ttsTexts_processAll_sublist synth 0 0 chunks

/-- C2: the claim is false on the code. With two non-blank chunks queued
and the first synthesis call failing, the single `drainTtsQueue`
invocation emits only one `tts_error` event and exits its loop: the second
chunk — whose synthesis would have succeeded — is left in the queue and no
event is emitted for it, so the drain does not continue synthesizing the
subsequent chunks already in the queue. -/
theorem c2CounterexampleThm :
    drainOnce synthFailFirst 0 0
        [("This is the first chunk.".toList), ("This is the second chunk.".toList)] =
      ⟨[Ev.ttsError ("boom".toList)], [], 0, [("This is the second chunk.".toList)]⟩ ∧
    synthFailFirst 1 (jsTrim ("This is the second chunk.".toList)) =
      .ok ("0123456789abcdef01234567".toList) 5 := by
  constructor
  · rfl
  · rfl

/-- C2 (amended): if the synthesis call for a dequeued non-blank chunk
fails, the drain invocation emits a single non-fatal `tts_error` event
(carrying only the error message) and stops: every chunk behind the
failing one remains in the queue, unprocessed and unreported by that
invocation; the turn index is not advanced. Those chunks are synthesized
only if a later enqueue restarts the drain. -/
theorem c2DrainStopsOnFailure (synth : Nat → List Char → SynthResult)
    (pos idx : Nat) (c : List Char) (rest : List (List Char)) (m : List Char)
    (hc : (jsTrim c).isEmpty = false) (hf : synth pos (jsTrim c) = .err m) :
    drainOnce synth pos idx (c :: rest) = ⟨[Ev.ttsError m], [], idx, rest⟩ := by
  simp only [drainOnce, hc, hf]
  rfl

/-- Witness for the amended C2 theorem at a concrete queue and oracle. -/
theorem c2DrainStopsOnFailureWitness :
    drainOnce synthFailFirst 0 0
        [("This is the first chunk.".toList), ("This is the second chunk.".toList)] =
      ⟨[Ev.ttsError ("boom".toList)], [], 0, [("This is the second chunk.".toList)]⟩ :=
  c2DrainStopsOnFailure synthFailFirst 0 0 ("This is the first chunk.".toList)
    [("This is the second chunk.".toList)] ("boom".toList) (by decide) (by decide)

/-- C5: the claim is false on the code. With the `end_call` tool enabled
and invoked, zero deltas produced, and a synthesis provider that would
succeed on anything, the turn substitutes and persists the fallback
farewell and reports `shouldEndCall: true` — but its event stream contains
no `tts_audio` event and no audio segment is stored: the fallback text is
never synthesized, because only text accumulated from deltas ever reaches
the synthesis queue. -/
theorem c5CounterexampleThm :
    (chatStreamModel ⟨[⟨Role.system, "You are a helpful agent.".toList⟩], []⟩
          [⟨"end_call".toList, true⟩] ("en".toList) ("Goodbye".toList)
          (.ok [] 10 [("end_call".toList)]) synthAllOk (fun _ => false)).events =
        [Ev.latency, Ev.final fallbackGoodbye true, Ev.done] ∧
      ((chatStreamModel ⟨[⟨Role.system, "You are a helpful agent.".toList⟩], []⟩
          [⟨"end_call".toList, true⟩] ("en".toList) ("Goodbye".toList)
          (.ok [] 10 [("end_call".toList)]) synthAllOk
          (fun _ => false)).savedConversation.map Conv.audioSegments) = some [] := by
  constructor
  · rfl
  · rfl

/-- C5 (amended): for every turn in which the generation provider invokes
the enabled `end_call` tool while producing empty text content, the
orchestrator substitutes the deterministic fallback farewell
`Goodbye! Have a great day.` as the persisted assistant message and the
final event carries `shouldEndCall: true` — but no audio segment is
synthesized for the fallback: the event stream is exactly `latency`,
`final`, `done`, and the stored segment list is unchanged. -/
theorem c5EndCallEmptyTextFallback (conv : Conv) (functions : List Func)
    (language userText : List Char) (tok : Nat) (fcs : List (List Char))
    (synth : Nat → List Char → SynthResult) (forceOracle : Nat → Bool)
    (hEnabled : endCallEnabledB functions = true)
    (hCalled : (fcs.any fun n => n == ("end_call".toList)) = true) :
    chatStreamModel conv functions language userText (.ok [] tok fcs) synth forceOracle =
      ⟨[Ev.latency, Ev.final fallbackGoodbye true, Ev.done],
        some ⟨applyLanguageFix language (conv.messages ++ [⟨Role.user, userText⟩]) ++
            [⟨Role.assistant, fallbackGoodbye⟩], conv.audioSegments⟩⟩ := by
  have hend : shouldEndCallB functions fcs = true := by
    unfold shouldEndCallB
    rw [hEnabled, hCalled]
    rfl
  unfold chatStreamModel
  dsimp only
  rw [hend]
  simp [runDeltas, processAll, finalResponseText, jsTrim]

/-- Witness for the amended C5 theorem at a concrete conversation, agent
function list and tool invocation. -/
theorem c5EndCallEmptyTextFallbackWitness :
    chatStreamModel ⟨[⟨Role.system, "You are a helpful agent.".toList⟩], []⟩
        [⟨"end_call".toList, true⟩] ("en".toList) ("Bye now".toList)
        (.ok [] 10 [("end_call".toList)]) synthAllOk (fun _ => false) =
      ⟨[Ev.latency, Ev.final fallbackGoodbye true, Ev.done],
        some ⟨applyLanguageFix ("en".toList)
            ([⟨Role.system, "You are a helpful agent.".toList⟩] ++
              [⟨Role.user, "Bye now".toList⟩]) ++
            [⟨Role.assistant, fallbackGoodbye⟩], []⟩⟩ :=
  c5EndCallEmptyTextFallback ⟨[⟨Role.system, "You are a helpful agent.".toList⟩], []⟩
    [⟨"end_call".toList, true⟩] ("en".toList) ("Bye now".toList) 10
    [("end_call".toList)] synthAllOk (fun _ => false) (by decide) (by decide)

/-- C6: the claim is false on the code. When the generation call fails
with HTTP status 429 before any delta and the provider supplied no
retry-after headers, the whole event stream of the turn is the single
`rate_limited` event whose `retryAfterMs` is null — no `done` event
follows it, and `retryAfterMs` is not numeric. -/
theorem c6CounterexampleThm :
    (chatStreamModel ⟨[], []⟩ [] ("en".toList) ("Hi".toList)
        (.fail (some 429) none none none ("Rate limit reached".toList))
        synthAllOk (fun _ => false)).events = [Ev.rateLimited none] := by
  rfl

/-- C6 (amended): for every turn whose generation call fails before any
delta with HTTP status 429 or provider code `rate_limit_exceeded`, the
event stream of the turn is exactly one `rate_limited` event whose
`retryAfterMs` is derived from the provider retry-after headers (null
when they are absent or zero), the response then ends with no further
event — no `done`, no `final`, no `error` — and nothing is persisted. -/
theorem c6RateLimitedTurn (conv : Conv) (functions : List Func)
    (language userText : List Char) (status : Option Nat)
    (code : Option (List Char)) (msH secH : Option Nat) (msg : List Char)
    (synth : Nat → List Char → SynthResult) (forceOracle : Nat → Bool)
    (h : status = some 429 ∨ code = some ("rate_limit_exceeded".toList)) :
    chatStreamModel conv functions language userText
        (.fail status code msH secH msg) synth forceOracle =
      ⟨[Ev.rateLimited (retryAfterFrom msH secH)], none⟩ := by
  unfold chatStreamModel
  rcases h with h | h
  · subst h
    simp
  · subst h
    simp

/-- Witness for the amended C6 theorem at a concrete 429 failure carrying
a millisecond retry-after header. -/
theorem c6RateLimitedTurnWitness :
    chatStreamModel ⟨[], []⟩ [] ("en".toList) ("Hello".toList)
        (.fail (some 429) none (some 1500) none ("Rate limit".toList))
        synthAllOk (fun _ => false) =
      ⟨[Ev.rateLimited (retryAfterFrom (some 1500) none)], none⟩ :=
  c6RateLimitedTurn ⟨[], []⟩ [] ("en".toList) ("Hello".toList) (some 429) none
    (some 1500) none ("Rate limit".toList) synthAllOk (fun _ => false) (Or.inl rfl)

/-- C9: every draft/prefetch request leaves persisted state unchanged —
the model of the handler never reaches a save of the conversation, appends
no message to it, touches no call record and invokes no speech synthesis
(the handler has no synthesis oracle at all, so no audio segment can be
created) — and its event stream contains only text-delta, latency, done,
rate-limited and error events. -/
theorem c9PrefetchDraftPure (conv : Conv) (language draftText : List Char)
    (gen : GenOutcome) :
    (prefetchDraftModel conv language draftText gen).savedConversation = none ∧
      ((prefetchDraftModel conv language draftText gen).events.all allowedDraftEvent)
        = true := by
  cases gen with
  | ok deltas tok fcs =>
    refine ⟨rfl, ?_⟩
    dsimp only [prefetchDraftModel]
    rw [List.all_append]
    have h1 : ∀ ds : List (List Char),
        (ds.map Ev.assistantDelta).all allowedDraftEvent = true := by
      intro ds
      induction ds with
      | nil => rfl
      | cons d rest ih =>
        rw [List.map_cons, List.all_cons, ih]
        rfl
    rw [h1]
    rfl
  | fail status code msH secH msg =>
    by_cases hc : (status == some 429 || code == some ("rate_limit_exceeded".toList)) = true
    · dsimp only [prefetchDraftModel]
      rw [if_pos hc]
      exact ⟨rfl, rfl⟩
    · dsimp only [prefetchDraftModel]
      rw [if_neg hc]
      exact ⟨rfl, rfl⟩

theorem storeDelete_find?_none (store : TokenStore) (k : List Char) :
    (storeDelete store k).find? (fun e => e.1 == k) = none := by
  induction store with
  | nil => rfl
  | cons e rest ih =>
    unfold storeDelete at ih ⊢
    rw [List.filter_cons]
    cases hb : (e.1 == k) with
    | true =>
      simp only [Bool.not_true]
      rw [if_neg (by simp)]
      exact ih
    | false =>
      simp only [Bool.not_false]
      rw [if_true, List.find?_cons_of_neg _ (by simp [hb])]
      exact ih

theorem storeGet_delete (store : TokenStore) (k : List Char) :
    storeGet (storeDelete store k) k = none := by
  unfold storeGet
  rw [storeDelete_find?_none]
  rfl

theorem storeGet_set (store : TokenStore) (k : List Char) (v : TokenItem) :
    storeGet (storeSet store k v) k = some v := by
  unfold storeGet storeSet
  rw [List.find?_append, storeDelete_find?_none]
  simp [List.find?_cons_of_pos]

theorem storeGet_create (store : TokenStore) (now : Nat) (token : List Char)
    (payload : TtsParams) :
    storeGet (createTtsToken store now token payload) token =
      some ⟨payload, now + ttlMs⟩ :=
  storeGet_set (cleanupExpiredTokens now store) token ⟨payload, now + ttlMs⟩

/-- C7: a minted delivery token is destroyed by its first fetch before
expiry, whether the synthesis stream then succeeds or fails (`ok1`): the
first fetch returns the stored synthesis parameters (or a failure), the
mapping is gone from the store afterwards, a second fetch of the same
token at any time yields not-found, and a fetch of a never-consumed token
at or after its 3-minute expiry also yields not-found; success is possible
at most once per token. -/
theorem c7TokenConsumedOnce (store : TokenStore) (now t1 t2 t3 : Nat)
    (token : List Char) (payload : TtsParams) (ok1 ok2 ok3 : Bool)
    (h1 : t1 < now + ttlMs) (h3 : now + ttlMs ≤ t3) :
    (streamTtsByToken (createTtsToken store now token payload) t1 token ok1).1 =
        (if ok1 then FetchRes.streamed payload else FetchRes.failed) ∧
      storeGet (streamTtsByToken (createTtsToken store now token payload) t1 token ok1).2
          token = none ∧
      (streamTtsByToken
          (streamTtsByToken (createTtsToken store now token payload) t1 token ok1).2
          t2 token ok2).1 = FetchRes.notFound ∧
      (streamTtsByToken (createTtsToken store now token payload) t3 token ok3).1 =
        FetchRes.notFound := by
  have hget := storeGet_create store now token payload
  have hcond : ¬ (0 < now + ttlMs ∧ now + ttlMs ≤ t1) := by
    intro hx
    exact absurd hx.2 (by omega)
  have hs1 : streamTtsByToken (createTtsToken store now token payload) t1 token ok1 =
      ((if ok1 then FetchRes.streamed payload else FetchRes.failed),
        storeDelete (createTtsToken store now token payload) token) := by
    unfold streamTtsByToken
    rw [hget]
    dsimp only
    rw [if_neg hcond]
  refine ⟨?_, ?_, ?_, ?_⟩
  · rw [hs1]
  · rw [hs1]
    exact storeGet_delete _ _
  · rw [hs1]
    unfold streamTtsByToken
    rw [storeGet_delete]
  · unfold streamTtsByToken
    rw [hget]
    dsimp only
    rw [if_pos ⟨Nat.lt_of_lt_of_le (by decide : (0 : Nat) < ttlMs)
      (Nat.le_add_left _ _), h3⟩]

/-- Witness for the C7 theorem: an empty store, a token minted at time 0,
a successful first fetch at 1000 ms, a replay attempt at 2000 ms and a
fresh-mint fetch attempt at 200000 ms (past the 180000 ms TTL). -/
theorem c7TokenConsumedOnceWitness :
    (streamTtsByToken (createTtsToken [] 0 ("ab".toList)
        ⟨"Hello".toList, none, none, none, none, none, none⟩) 1000 ("ab".toList) true).1 =
        (if true then
          FetchRes.streamed ⟨"Hello".toList, none, none, none, none, none, none⟩
        else FetchRes.failed) ∧
      storeGet (streamTtsByToken (createTtsToken [] 0 ("ab".toList)
          ⟨"Hello".toList, none, none, none, none, none, none⟩) 1000
          ("ab".toList) true).2 ("ab".toList) = none ∧
      (streamTtsByToken (streamTtsByToken (createTtsToken [] 0 ("ab".toList)
          ⟨"Hello".toList, none, none, none, none, none, none⟩) 1000
          ("ab".toList) true).2 2000 ("ab".toList) false).1 = FetchRes.notFound ∧
      (streamTtsByToken (createTtsToken [] 0 ("ab".toList)
          ⟨"Hello".toList, none, none, none, none, none, none⟩) 200000
          ("ab".toList) true).1 = FetchRes.notFound :=
  c7TokenConsumedOnce [] 0 1000 2000 200000 ("ab".toList)
    ⟨"Hello".toList, none, none, none, none, none, none⟩ true false true
    (by decide) (by decide)

theorem filterMap_eq_filter_map_getD (download : List Char → Option (List Nat))
    (l : List (List Char)) :
    l.filterMap download =
      (l.filter fun i => (download i).isSome).map fun i => (download i).getD [] := by
  induction l with
  | nil => rfl
  | cons a rest ih =>
    rw [List.filterMap_cons, List.filter_cons]
    cases h : download a with
    | none => simp [h, ih]
    | some b => simp [h, ih]

/-- C8: an invocation of `mergeConversationAudio` on a non-empty id list
with at least one successful download stores a blob whose bytes are
exactly the concatenation, in the given list order, of the bytes of the
segments whose download succeeded: a failing segment is skipped without
aborting the merge and without reordering the rest, and the stored blob is
classified `full_conversation` with no expiry. -/
theorem c8MergeConcatInOrder (download : List Char → Option (List Nat))
    (ids : List (List Char)) (hne : ids ≠ [])
    (hval : ids.filterMap download ≠ []) :
    mergeConversationAudio download ids =
      .ok ⟨((ids.filter fun i => (download i).isSome).map
            fun i => (download i).getD []).flatten,
        "full_conversation".toList, none⟩ := by
  unfold mergeConversationAudio
  have h1 : ¬ ids.isEmpty = true := fun hx => hne (List.isEmpty_iff.mp hx)
  rw [if_neg h1]
  dsimp only
  have h2 : ¬ (ids.filterMap download).isEmpty = true :=
    fun hx => hval (List.isEmpty_iff.mp hx)
  rw [if_neg h2, filterMap_eq_filter_map_getD]
  rfl

/-- Witness for the C8 theorem: merging `[segA, segB, segC]` with `segB`
unreachable yields exactly the bytes of `segA` followed by the bytes of
`segC`. -/
theorem c8MergeConcatInOrderWitness :
    mergeConversationAudio downloadABC
        [("segA".toList), ("segB".toList), ("segC".toList)] =
      .ok ⟨[1, 2, 5], "full_conversation".toList, none⟩ :=
  c8MergeConcatInOrder downloadABC
    [("segA".toList), ("segB".toList), ("segC".toList)]
    (by decide) (by decide)

theorem filterMap_eq_nil_of_all_isNone (download : List Char → Option (List Nat))
    (l : List (List Char)) (h : (l.all fun i => (download i).isNone) = true) :
    l.filterMap download = [] := by
  induction l with
  | nil => rfl
  | cons a rest ih =>
    rw [List.all_cons, Bool.and_eq_true] at h
    rw [List.filterMap_cons]
    cases hd : download a with
    | some b =>
      rw [hd] at h
      cases h.1
    | none => exact ih h.2

/-- C10: a merge invocation whose segment id list is empty, or on which
every download fails, throws the corresponding error and stores nothing:
no empty or zero-segment `full_conversation` blob is ever created. -/
theorem c10MergeRequiresSegment (download : List Char → Option (List Nat))
    (ids : List (List Char))
    (h : (ids.all fun i => (download i).isNone) = true) :
    mergeConversationAudio download ids =
      .error (if ids.isEmpty then ("No audio files to merge".toList)
        else ("No valid audio segments to merge".toList)) := by
  unfold mergeConversationAudio
  cases ids with
  | nil => rfl
  | cons a rest =>
    simp only [List.isEmpty_cons, Bool.false_eq_true, if_false]
    rw [filterMap_eq_nil_of_all_isNone download (a :: rest) h]
    rfl

/-- Witness for the C10 theorem: merging two segments both of whose
downloads fail raises the no-valid-segments error. -/
theorem c10MergeRequiresSegmentWitness :
    mergeConversationAudio (fun _ => (none : Option (List Nat)))
        [("segA".toList), ("segB".toList)] =
      .error ("No valid audio segments to merge".toList) :=
  c10MergeRequiresSegment (fun _ => (none : Option (List Nat)))
    [("segA".toList), ("segB".toList)] (by decide)

end AIVoice
